import Mathlib

/-!
Verification model of the ausome-scraper product scraping pipeline.

The repository contains two variants of the same Go program:
* `src/unnamed/part_000` — the current pipeline: loads `urls.json`, allocates a
  fresh browser execution context per URL, applies randomized pacing delays,
  captures a diagnostic screenshot on failure, and upserts into Postgres.
  Modelled in namespace `Part000`.
* `src/main/main.go` — an older variant: a hardcoded URL list, one shared
  browser context created in `main` and reused for every URL and cycle, and an
  image-extraction step with ordered candidate selectors.
  Modelled in namespace `MainGo`.

Shared pieces (the `Product` record, the SQL upsert, the DOM page model and the
stock-status script, which are identical in both variants) are at top level.
-/

/-- A DOM element as observed by the injected scripts: only `textContent` and
`src` are ever read. -/
structure Element where
  textContent : String
  src : String
deriving Repr, DecidableEq

/-- A loaded page, modelled by its `document.querySelector` behaviour:
for each CSS selector string, either the first matching element or `none`. -/
structure Page where
  querySelector : String → Option Element

/-- The `Product` struct (`main.go` / `part_000`, type `Product`).
`Price` is Go `float64` but the program only ever writes the zero value, so it
is modelled as an integer; `UpdatedAt` (`time.Time`) is a numeric timestamp. -/
structure Product where
  ID : Nat
  URL : String
  Name : String
  InStock : Bool
  Price : Int
  ImageURL : String
  UpdatedAt : Nat
deriving Repr, DecidableEq

/-- The `products` table: a list of rows plus the sequence counter backing the
store-assigned surrogate key `id`. -/
structure Store where
  rows : List Product
  nextId : Nat
deriving Repr, DecidableEq

/-- Overwrite the mutable columns of row `r` with those of `p`, as the SQL
`DO UPDATE SET name = $2, in_stock = $3, price = $4, image_url = $5,
updated_at = $6` does: `id` and `url` are untouched. -/
def applyMut (r p : Product) : Product :=
  { r with Name := p.Name, InStock := p.InStock, Price := p.Price,
           ImageURL := p.ImageURL, UpdatedAt := p.UpdatedAt }

/-- `updateProduct` (`updateProduct` in both Go files): executes
`INSERT INTO products (url, name, in_stock, price, image_url, updated_at)
VALUES ... ON CONFLICT (url) DO UPDATE SET ...`.  If a row with the same `url`
exists the mutable columns of every such row are overwritten (the unique key
makes it at most one); otherwise a new row is appended with a fresh
store-assigned `id`. -/
def updateProduct (db : Store) (p : Product) : Store :=
  if db.rows.any (fun r => r.URL == p.URL) then
    { db with rows := db.rows.map (fun r => if r.URL == p.URL then applyMut r p else r) }
  else
    { rows := db.rows ++ [{ p with ID := db.nextId }], nextId := db.nextId + 1 }

/-- All rows whose `url` column equals `u`. -/
def urlRows (db : Store) (u : String) : List Product :=
  db.rows.filter (fun r => r.URL == u)

/-- The record the read API would return for `url = u` (first matching row). -/
def findByUrl (db : Store) (u : String) : Option Product :=
  (urlRows db u).head?

/-- A sequence of upsert calls, applied in order. -/
def upsertAll (db : Store) (ps : List Product) : Store :=
  ps.foldl updateProduct db

/-- Why an attempt terminated without a result (spec §4.3): the navigation
itself failed, or a structural wait timed out. -/
inductive FailReason
  | navigation
  | timeout
deriving Repr, DecidableEq

/-- Result of driving the browser at a URL: the navigation errored, a wait
timed out, or the page loaded and is available for script evaluation. -/
inductive NavOutcome
  | navError
  | waitTimeout
  | loaded (page : Page)

/-- Terminal outcome of one scrape attempt. -/
inductive Outcome
  | success (name : String) (inStock : Bool) (imageURL : String)
  | failure (reason : FailReason)

/-- The three out-of-stock marker selectors probed by the stock-status script
(identical in both variants). -/
def oosSelectors : List String :=
  ["[automation-id=\"outOfStockMessage\"]", ".out-of-stock-msg", ".oos-overlay"]

/-- The injected stock-status script: `!(qs(oos1) || qs(oos2) || qs(oos3))` —
the product is in stock exactly when no out-of-stock marker is present. -/
def evalInStock (page : Page) : Bool :=
  ((page.querySelector "[automation-id=\"outOfStockMessage\"]").or
    ((page.querySelector ".out-of-stock-msg").or
      (page.querySelector ".oos-overlay"))).isNone

namespace Part000

/-- The product-name script of `part_000` (lines 157-164): the first non-null
among three selector queries, trimmed; empty string when none matches. -/
def evalName (page : Page) : String :=
  match (page.querySelector "h1[automation-id=\"productName\"]").or
      ((page.querySelector ".product-title").or (page.querySelector "h1")) with
  | some e => e.textContent.trim
  | none => ""

/-- One attempt of the single `chromedp.Run` of `part_000` (lines 148-174):
navigation or wait failures abort the run with an error; once the page is
loaded the two evaluation scripts always produce values (`imageURL` is a
declared local that is never assigned, so it stays the Go zero value `""`). -/
def attempt (nav : NavOutcome) : Outcome :=
  match nav with
  | .navError => .failure .navigation
  | .waitTimeout => .failure .timeout
  | .loaded page => .success (evalName page) (evalInStock page) ""

/-- External behaviour visible to one scrape cycle of `part_000`, per URL:
the browser-run result, whether the diagnostic screenshot (session, capture
and file write) succeeds, whether the database upsert errors, the two
`rand.Intn` draws, and the `time.Now()` timestamp at the write. -/
structure Env where
  nav : String → NavOutcome
  diagOk : String → Bool
  dbErr : String → Bool
  preSeed : String → Nat
  postSeed : String → Nat
  now : String → Nat

/-- The `Product` value handed to `updateProduct` for `url`, when the attempt
succeeds (`part_000` lines 205-215): `Price` is left at the Go zero value and
`ImageURL` is the never-assigned local, i.e. `""`. -/
def upsertArg (env : Env) (url : String) : Option Product :=
  match attempt (env.nav url) with
  | .failure _ => none
  | .success name inStock imageURL =>
      some { ID := 0, URL := url, Name := name, InStock := inStock, Price := 0,
             ImageURL := imageURL, UpdatedAt := env.now url }

/-- Effect of one loop iteration of `scrapeProducts` on the store: a failed
attempt skips the write (`continue`), a database error is logged and
swallowed, otherwise the row is upserted. -/
def processUrl (env : Env) (db : Store) (url : String) : Store :=
  match upsertArg env url with
  | none => db
  | some p => if env.dbErr url then db else updateProduct db p

/-- The URLs for which the cycle invokes `updateProduct` (the call happens on
every successful attempt, whether or not the database then errors). -/
def upsertCalls (env : Env) (urls : List String) : List String :=
  urls.filter (fun url => (upsertArg env url).isSome)

/-- `rand.Intn`: a value in `[0, n)` drawn from the generator. -/
def randIntn (seed n : Nat) : Nat := seed % n

/-- The pre-attempt delay, `2 + rand.Intn(5)` seconds (`part_000` line 135). -/
def preDelay (seed : Nat) : Nat := 2 + randIntn seed 5

/-- The post-attempt delay, `5 + rand.Intn(10)` seconds (`part_000` line 220). -/
def postDelay (seed : Nat) : Nat := 5 + randIntn seed 10

/-- The sequence of `time.Sleep` durations (in seconds) executed by one loop
iteration: the pre-delay always runs at the top of the body; on failure the
`continue` at line 198 skips the post-delay at line 220. -/
def urlSleeps (env : Env) (url : String) : List Nat :=
  preDelay (env.preSeed url) ::
    match attempt (env.nav url) with
    | .failure _ => []
    | .success _ _ _ => [postDelay (env.postSeed url)]

/-- The attempt outcome together with the diagnostic-capture activity
(`part_000` lines 180-199): the screenshot block runs only under `err != nil`,
its own success or failure is recorded but the original outcome is what the
iteration reports. -/
def attemptWithDiag (env : Env) (url : String) : Outcome × Option Bool :=
  match attempt (env.nav url) with
  | .success name inStock imageURL => (.success name inStock imageURL, none)
  | .failure r => (.failure r, some (env.diagOk url))

/-- Cycle-level error causes: `os.ReadFile` of `urls.json` failed, or
`json.Unmarshal` of its contents failed (`part_000` lines 99-112). -/
inductive LoadErr
  | readError
  | jsonError
deriving Repr, DecidableEq

/-- `scrapeProducts` (`part_000` lines 99-224): returns the load error when
the URL list cannot be read or parsed; otherwise processes every URL in order
and returns nil (`.ok`) — per-URL failures and database errors are logged and
swallowed inside the loop. -/
def scrapeProducts (load : Except LoadErr (List String)) (env : Env) (db : Store) :
    Except LoadErr Store :=
  match load with
  | .error e => .error e
  | .ok urls => .ok (urls.foldl (processUrl env) db)

/-- Input determining one cycle: the load result and the environment of the cycle. -/
structure CycleInput where
  load : Except LoadErr (List String)
  env : Env

/-- One turn of the `for` loop in `main` (`part_000` lines 90-95): a cycle
error is logged and the loop proceeds with the store unchanged. -/
def driverStep (db : Store) (c : CycleInput) : Store :=
  match scrapeProducts c.load c.env db with
  | .error _ => db
  | .ok db2 => db2

/-- The driver run over a list of cycle inputs, counting the cycles executed:
the loop never terminates on a cycle error, so every input is consumed. -/
def driverRun (inputs : List CycleInput) (db : Store) : Store × Nat :=
  match inputs with
  | [] => (db, 0)
  | c :: rest =>
      let r := driverRun rest (driverStep db c)
      (r.1, r.2 + 1)

/-- Allocation of a browser execution context
(`chromedp.NewExecAllocator` + `chromedp.NewContext`): contexts are numbered
by a global counter, so equal numbers mean the same context. -/
def newContext (next : Nat) : Nat × Nat := (next, next + 1)

/-- Context usage of one loop iteration (`part_000` lines 137-141 and
181-183): the attempt runs in a context created fresh for it; on failure the
diagnostic capture creates one further fresh context.  Returns the context id
the attempt used and the updated allocation counter. -/
def urlSessions (env : Env) (next : Nat) (url : String) : Nat × Nat :=
  let c := newContext next
  match attempt (env.nav url) with
  | .failure _ => (c.1, (newContext c.2).2)
  | .success _ _ _ => (c.1, c.2)

/-- Context ids used by the attempts of one cycle, in order. -/
def cycleSessions (env : Env) (urls : List String) (next : Nat) : List Nat × Nat :=
  match urls with
  | [] => ([], next)
  | url :: rest =>
      let s := urlSessions env next url
      let r := cycleSessions env rest s.2
      (s.1 :: r.1, r.2)

/-- Context ids used by the attempts of a sequence of cycles. -/
def runSessions (cycles : List (Env × List String)) (next : Nat) : List Nat × Nat :=
  match cycles with
  | [] => ([], next)
  | c :: rest =>
      let s := cycleSessions c.1 c.2 next
      let r := runSessions rest s.2
      (s.1 ++ r.1, r.2)

end Part000

namespace MainGo

/-- The product-name script of `main.go` (lines 117-122): only `h1` is
queried; trimmed text content, or empty string. -/
def evalName (page : Page) : String :=
  match page.querySelector "h1" with
  | some e => e.textContent.trim
  | none => ""

/-- The ordered candidate image selectors of `main.go` (lines 163-169). -/
def imageSelectors : List String :=
  ["img[alt*=\"Product\"]", "img[alt*=\"product\"]", ".MuiBox-root img",
   "[data-testid=\"Clickzoom_image_container\"] img", "#zoomImg_wrapper img"]

/-- The selector loop of the image script (`main.go` lines 171-185): return
the `src` of the first selector that matches, else the empty string. -/
def firstImageSrc (page : Page) : List String → String
  | [] => ""
  | sel :: rest =>
      match page.querySelector sel with
      | some img => img.src
      | none => firstImageSrc page rest

/-- The injected image script: first match among the ordered candidates. -/
def evalImage (page : Page) : String :=
  firstImageSrc page imageSelectors

/-- External behaviour visible to one cycle of `main.go`, per URL: the result
of the first `chromedp.Run` (Navigate + WaitVisible h1), whether the
`WaitVisible("#heroImage_zoom")` inside the second run succeeds before the
context deadline, whether the upsert errors, and `time.Now()` at the write. -/
structure Env where
  nav : String → NavOutcome
  heroWait : String → Bool
  dbErr : String → Bool
  now : String → Nat

/-- One attempt of `main.go` (lines 98-193): the first run fails on
navigation error or wait timeout (`continue`); in the second run the three
evaluation scripts always produce values, but the `WaitVisible` on
`#heroImage_zoom` can time out, which also aborts the iteration
(`continue` at line 192). -/
def attempt (env : Env) (url : String) : Outcome :=
  match env.nav url with
  | .navError => .failure .navigation
  | .waitTimeout => .failure .timeout
  | .loaded page =>
      if env.heroWait url then
        .success (evalName page) (evalInStock page) (evalImage page)
      else
        .failure .timeout

/-- Effect of one loop iteration of the `scrapeProducts` of `main.go` on the
store (lines 208-221). -/
def processUrl (env : Env) (db : Store) (url : String) : Store :=
  match attempt env url with
  | .failure _ => db
  | .success name inStock imageURL =>
      if env.dbErr url then db
      else updateProduct db { ID := 0, URL := url, Name := name, InStock := inStock,
                              Price := 0, ImageURL := imageURL, UpdatedAt := env.now url }

/-- The single browser context of `main.go`: allocated once in `main`
(lines 74-79, counter starts at 0) and passed to `scrapeProducts` for every
URL of every cycle. -/
def mainContext : Nat := (Part000.newContext 0).1

/-- The context id used by each attempt across `cycles` iterations of the
outer loop over a fixed URL list: always the one shared context
(`main.go` lines 82-87 and 96-115). -/
def attemptContexts (cycles : Nat) (urls : List String) : List Nat :=
  List.replicate (cycles * urls.length) mainContext

end MainGo

/-- Modelled from the spec: "image URL (first match among ordered candidate
selectors)" — `img` is the `src` of the element found by the first candidate
selector that matches, every earlier candidate matching nothing; or no
candidate matches and `img` is empty. -/
def firstMatchSpec (page : Page) (sels : List String) (img : String) : Prop :=
  (∃ pre sel post, sels = pre ++ sel :: post ∧
      (∀ s ∈ pre, page.querySelector s = none) ∧
      ∃ e, page.querySelector sel = some e ∧ img = e.src) ∨
  ((∀ s ∈ sels, page.querySelector s = none) ∧ img = "")

/-- A page where no selector matches anything. -/
def pageEmpty : Page := ⟨fun _ => none⟩

/-- A page with a product heading and a hero/zoom image. -/
def pageDemo : Page :=
  ⟨fun sel =>
    if sel = "h1" then some ⟨"Widget", ""⟩
    else if sel = "#zoomImg_wrapper img" then some ⟨"", "https://img.example/w.png"⟩
    else none⟩

/-- A page showing an out-of-stock overlay. -/
def pageOos : Page :=
  ⟨fun sel =>
    if sel = ".oos-overlay" then some ⟨"Out of Stock", ""⟩
    else if sel = "h1" then some ⟨"Widget", ""⟩
    else none⟩

/-- An environment whose browser runs all fail at navigation. -/
def envFailNav : Part000.Env :=
  { nav := fun _ => .navError, diagOk := fun _ => false, dbErr := fun _ => false,
    preSeed := fun _ => 0, postSeed := fun _ => 0, now := fun _ => 0 }

/-- An environment whose browser runs all load an empty page. -/
def envLoadEmpty : Part000.Env :=
  { nav := fun _ => .loaded pageEmpty, diagOk := fun _ => true, dbErr := fun _ => false,
    preSeed := fun _ => 3, postSeed := fun _ => 4, now := fun _ => 11 }

/-- A `main.go` environment whose browser runs all load `pageDemo`. -/
def envDemoMain : MainGo.Env :=
  { nav := fun _ => .loaded pageDemo, heroWait := fun _ => true,
    dbErr := fun _ => false, now := fun _ => 21 }

/-- An empty store whose id sequence starts at 1. -/
def store0 : Store := { rows := [], nextId := 1 }

/-- A store already holding a record for url `"u"` with a nonzero price. -/
def storeU : Store :=
  { rows := [{ ID := 7, URL := "u", Name := "Old", InStock := true, Price := 99,
               ImageURL := "old.png", UpdatedAt := 5 }], nextId := 8 }

/-- First upsert argument for the `C1` witness. -/
def pA : Product :=
  { ID := 0, URL := "u", Name := "A", InStock := true, Price := 0,
    ImageURL := "", UpdatedAt := 1 }

/-- Second upsert argument for the `C1` witness. -/
def pB : Product :=
  { ID := 0, URL := "u", Name := "B", InStock := false, Price := 0,
    ImageURL := "b.png", UpdatedAt := 2 }

theorem applyMut_ID (r p : Product) : (applyMut r p).ID = r.ID := rfl

theorem applyMut_URL (r p : Product) : (applyMut r p).URL = r.URL := rfl

theorem applyMut_applyMut (r p q : Product) : applyMut (applyMut r p) q = applyMut r q := rfl

theorem filter_map_update (rows : List Product) (p : Product) (u : String) :
    (rows.map (fun x => if x.URL == p.URL then applyMut x p else x)).filter
        (fun x => x.URL == u) =
      (rows.filter (fun x => x.URL == u)).map
        (fun x => if x.URL == p.URL then applyMut x p else x) := by
  have hcomp : ((fun x : Product => x.URL == u) ∘
        fun x => if x.URL == p.URL then applyMut x p else x) =
      fun x : Product => x.URL == u := by
    funext x
    by_cases hx : (x.URL == p.URL) = true <;> simp [Function.comp, hx, applyMut]
  rw [List.filter_map, hcomp]

theorem urlRows_update_insert (db : Store) (p : Product)
    (h0 : urlRows db p.URL = []) :
    urlRows (updateProduct db p) p.URL = [{ p with ID := db.nextId }] := by
  have hnil : db.rows.filter (fun r => r.URL == p.URL) = [] := h0
  have hany : db.rows.any (fun r => r.URL == p.URL) = false := by
    rw [List.any_eq_false]
    intro r hr
    exact List.filter_eq_nil_iff.mp hnil r hr
  unfold updateProduct
  rw [hany]
  simp only [Bool.false_eq_true, if_false]
  unfold urlRows
  simp [List.filter_append, hnil]

theorem urlRows_update_conflict (db : Store) (p r : Product)
    (h1 : urlRows db p.URL = [r]) :
    urlRows (updateProduct db p) p.URL = [applyMut r p] := by
  have hfil : db.rows.filter (fun x => x.URL == p.URL) = [r] := h1
  have hr : r ∈ db.rows ∧ (r.URL == p.URL) = true := by
    have hmem : r ∈ db.rows.filter (fun x => x.URL == p.URL) := by
      rw [hfil]; exact List.mem_singleton.mpr rfl
    exact List.mem_filter.mp hmem
  have hany : db.rows.any (fun x => x.URL == p.URL) = true :=
    List.any_eq_true.mpr ⟨r, hr.1, hr.2⟩
  unfold updateProduct
  rw [hany]
  simp only [if_true]
  unfold urlRows
  rw [filter_map_update, hfil]
  simp only [List.map_cons, List.map_nil]
  rw [if_pos hr.2]

theorem urlRows_update_other (db : Store) (p : Product) (u : String)
    (hne : p.URL ≠ u) :
    urlRows (updateProduct db p) u = urlRows db u := by
  unfold updateProduct
  split
  · unfold urlRows
    rw [filter_map_update]
    have : ∀ x ∈ db.rows.filter (fun x => x.URL == u),
        (if x.URL == p.URL then applyMut x p else x) = x := by
      intro x hx
      have hxu : x.URL = u := by
        have := (List.mem_filter.mp hx).2
        exact beq_iff_eq.mp this
      have : (x.URL == p.URL) = false := by
        rw [beq_eq_false_iff_ne, hxu]
        exact fun h => hne h.symm
      simp [this]
    rw [List.map_congr_left this, List.map_id']
  · unfold urlRows
    have hx : (({ p with ID := db.nextId } : Product).URL == u) = false := by
      rw [beq_eq_false_iff_ne]
      exact hne
    simp [List.filter_append, hx]

theorem findByUrl_update (db : Store) (p : Product) :
    ∃ q, findByUrl (updateProduct db p) p.URL = some q ∧
      q.URL = p.URL ∧ q.Name = p.Name ∧ q.InStock = p.InStock ∧
      q.Price = p.Price ∧ q.ImageURL = p.ImageURL ∧ q.UpdatedAt = p.UpdatedAt := by
  unfold findByUrl
  unfold updateProduct
  split
  next hany =>
    obtain ⟨r, hmem, hpred⟩ := List.any_eq_true.mp hany
    unfold urlRows
    rw [filter_map_update]
    cases hf : db.rows.filter (fun x => x.URL == p.URL) with
    | nil =>
        have hmemf : r ∈ db.rows.filter (fun x => x.URL == p.URL) :=
          List.mem_filter.mpr ⟨hmem, hpred⟩
        rw [hf] at hmemf
        exact absurd hmemf (List.not_mem_nil r)
    | cons a as =>
        have hacons : a ∈ db.rows.filter (fun x => x.URL == p.URL) := by
          rw [hf]
          exact List.mem_cons_self a as
        have ha : (a.URL == p.URL) = true := (List.mem_filter.mp hacons).2
        refine ⟨applyMut a p, ?_, ?_, rfl, rfl, rfl, rfl, rfl⟩
        · simp only [List.map_cons, List.head?_cons]
          rw [if_pos ha]
        · exact beq_iff_eq.mp ha
  next hany =>
    have hnone : ∀ x ∈ db.rows, ¬ x.URL = p.URL := by simpa using hany
    have hnil : db.rows.filter (fun x => x.URL == p.URL) = [] := by
      rw [List.filter_eq_nil_iff]
      intro a hamem
      simpa using hnone a hamem
    refine ⟨{ p with ID := db.nextId }, ?_, rfl, rfl, rfl, rfl, rfl, rfl⟩
    unfold urlRows
    simp [List.filter_append, hnil]

theorem applyMut_eq_setId (r x : Product) (n : Nat) (h : r.URL = x.URL) :
    applyMut { r with ID := n } x = { x with ID := n } := by
  cases r
  cases x
  simp_all [applyMut]

theorem foldl_applyMut_cons (q : Product) (ps : List Product) (r : Product) :
    (q :: ps).foldl applyMut r = applyMut r (ps.getLastD q) := by
  induction ps generalizing q r with
  | nil => rfl
  | cons q2 rest ih =>
      show (q2 :: rest).foldl applyMut (applyMut r q) = applyMut r ((q2 :: rest).getLastD q)
      rw [ih q2 (applyMut r q), applyMut_applyMut, List.getLastD_cons]

theorem urlRows_upsertAll_conflict (u : String) (ps : List Product) :
    ∀ (S : Store) (r : Product), urlRows S u = [r] → (∀ q ∈ ps, q.URL = u) →
      urlRows (upsertAll S ps) u = [ps.foldl applyMut r] := by
  induction ps with
  | nil =>
      intro S r h _
      exact h
  | cons q rest ih =>
      intro S r h hu
      have hq : q.URL = u := hu q (List.mem_cons_self q rest)
      have h2 : urlRows (updateProduct S q) u = [applyMut r q] := by
        have step := urlRows_update_conflict S q r (by rw [hq]; exact h)
        rwa [hq] at step
      have tail := ih (updateProduct S q) (applyMut r q) h2
        (fun x hx => hu x (List.mem_cons_of_mem q hx))
      simpa [upsertAll, List.foldl_cons] using tail

/-- C1: for every sequence of N ≥ 1 upserts (`updateProduct`) with the same
url `u`, starting from a store with no record for `u`, the store retains
exactly one record for `u`; its name, stock, price, image and timestamp
columns equal those of the Nth upsert, and its id is the one assigned by the
first upsert — the conflict update never changes the id. -/
theorem upsert_sequence_lww (S : Store) (u : String) (p : Product) (ps : List Product)
    (hu : ∀ q ∈ p :: ps, q.URL = u) (h0 : urlRows S u = []) :
    urlRows (upsertAll S (p :: ps)) u = [{ ps.getLastD p with ID := S.nextId }] := by
  have hp : p.URL = u := hu p (List.mem_cons_self p ps)
  have h1 : urlRows (updateProduct S p) u = [{ p with ID := S.nextId }] := by
    rw [← hp]
    exact urlRows_update_insert S p (by rw [hp]; exact h0)
  cases ps with
  | nil =>
      simpa [upsertAll] using h1
  | cons q rest =>
      have hchain := urlRows_upsertAll_conflict u (q :: rest) (updateProduct S p)
        { p with ID := S.nextId } h1 (fun x hx => hu x (List.mem_cons_of_mem p hx))
      have hrest : upsertAll S (p :: q :: rest) = upsertAll (updateProduct S p) (q :: rest) := by
        simp [upsertAll]
      rw [hrest, hchain, foldl_applyMut_cons]
      have hlast_mem : rest.getLastD q ∈ q :: rest := List.getLastD_mem_cons rest q
      have hlast_url : (rest.getLastD q).URL = u := hu _ (List.mem_cons_of_mem p hlast_mem)
      rw [applyMut_eq_setId p (rest.getLastD q) S.nextId (by rw [hp, hlast_url]),
        List.getLastD_cons]

/-- Witness for C1: two upserts for url `"u"` into an empty store leave
exactly the fields of the second upsert under the id assigned by the first upsert. -/
theorem upsert_sequence_lww_witness :
    urlRows (upsertAll store0 [pA, pB]) "u" = [{ pB with ID := 1 }] :=
  upsert_sequence_lww store0 "u" pA [pB] (by decide) (by decide)

theorem upsertArg_url_price (env : Part000.Env) (url : String) (p : Product)
    (hp : Part000.upsertArg env url = some p) : p.URL = url ∧ p.Price = 0 := by
  unfold Part000.upsertArg at hp
  cases h : Part000.attempt (env.nav url) with
  | failure r => rw [h] at hp; cases hp
  | success n s i => rw [h] at hp; cases hp; exact ⟨rfl, rfl⟩

theorem processUrl_urlRows_of_failure (env : Part000.Env) (u : String) (r : FailReason)
    (h : Part000.attempt (env.nav u) = .failure r) (db : Store) (url : String) :
    urlRows (Part000.processUrl env db url) u = urlRows db u := by
  unfold Part000.processUrl
  cases harg : Part000.upsertArg env url with
  | none => rfl
  | some p =>
      by_cases hdb : env.dbErr url = true
      · simp [hdb]
      · simp only [Bool.not_eq_true] at hdb
        simp only [hdb, Bool.false_eq_true, if_false]
        have hpu : p.URL = url := (upsertArg_url_price env url p harg).1
        have hne : url ≠ u := by
          intro he
          subst he
          unfold Part000.upsertArg at harg
          rw [h] at harg
          cases harg
        exact urlRows_update_other db p u (by rw [hpu]; exact hne)

theorem foldl_processUrl_urlRows_of_failure (env : Part000.Env) (u : String) (r : FailReason)
    (h : Part000.attempt (env.nav u) = .failure r) (urls : List String) :
    ∀ db : Store, urlRows (urls.foldl (Part000.processUrl env) db) u = urlRows db u := by
  induction urls with
  | nil => intro db; rfl
  | cons url rest ih =>
      intro db
      rw [List.foldl_cons, ih, processUrl_urlRows_of_failure env u r h db url]

/-- C2: if the attempt for url `u` ends in a `Failure` outcome, the cycle
never calls the upsert for `u`, and the previously persisted record for `u`
(if any) is unchanged after the whole cycle. -/
theorem failure_skips_upsert (env : Part000.Env) (db : Store) (urls : List String)
    (u : String) (r : FailReason) (h : Part000.attempt (env.nav u) = .failure r) :
    u ∉ Part000.upsertCalls env urls ∧
    urlRows (urls.foldl (Part000.processUrl env) db) u = urlRows db u ∧
    findByUrl (urls.foldl (Part000.processUrl env) db) u = findByUrl db u := by
  have hrows := foldl_processUrl_urlRows_of_failure env u r h urls db
  refine ⟨?_, hrows, ?_⟩
  · intro hmem
    have hpred := (List.mem_filter.mp hmem).2
    have harg : Part000.upsertArg env u = none := by
      unfold Part000.upsertArg
      rw [h]
    rw [harg] at hpred
    cases hpred
  · unfold findByUrl
    rw [hrows]

/-- Witness for C2: a navigation failure for `"u"` leaves the stored record
for `"u"` untouched and issues no upsert. -/
theorem failure_skips_upsert_witness :
    "u" ∉ Part000.upsertCalls envFailNav ["u"] ∧
    urlRows (["u"].foldl (Part000.processUrl envFailNav) storeU) "u" = urlRows storeU "u" ∧
    findByUrl (["u"].foldl (Part000.processUrl envFailNav) storeU) "u" = findByUrl storeU "u" :=
  failure_skips_upsert envFailNav storeU ["u"] "u" .navigation rfl

/-- C3: once the page is loaded (Navigate and the structural waits
completed), the attempt is a `Success` carrying whichever fields the
evaluation scripts resolved — an extraction selector that matches nothing
yields the default (`""` for name, in-stock `true`) instead of failing — and
the success leads to an upsert; an attempt terminates as `Failure` exactly on
a navigation error or a wait timeout. -/
theorem extract_failures_not_terminal (nav : NavOutcome) (env : Part000.Env)
    (url : String) (page : Page) :
    (∀ pg : Page, Part000.attempt (.loaded pg) =
      .success (Part000.evalName pg) (evalInStock pg) "") ∧
    ((∀ s, page.querySelector s = none) →
      Part000.attempt (.loaded page) = .success "" true "") ∧
    (∀ r, Part000.attempt nav = .failure r ↔
      (nav = .navError ∧ r = .navigation) ∨ (nav = .waitTimeout ∧ r = .timeout)) ∧
    (env.nav url = .loaded page →
      Part000.upsertArg env url = some { ID := 0, URL := url, Name := Part000.evalName page,
                                         InStock := evalInStock page, Price := 0, ImageURL := "",
                                         UpdatedAt := env.now url }) := by
  refine ⟨fun pg => rfl, ?_, ?_, ?_⟩
  · intro hall
    simp [Part000.attempt, Part000.evalName, evalInStock, hall]
  · intro r
    cases nav <;> cases r <;> simp [Part000.attempt]
  · intro h
    unfold Part000.upsertArg
    rw [h]
    rfl

/-- Witness for C3: a page where no selector matches still yields a
`Success` with default fields, and a loaded page yields an upsert call. -/
theorem extract_failures_not_terminal_witness :
    Part000.attempt (.loaded pageEmpty) = .success "" true "" ∧
    Part000.upsertArg envLoadEmpty "u" = some { ID := 0, URL := "u", Name := "",
                                                InStock := true, Price := 0, ImageURL := "",
                                                UpdatedAt := 11 } :=
  ⟨(extract_failures_not_terminal .navError envLoadEmpty "u" pageEmpty).2.1 (fun _ => rfl),
   (extract_failures_not_terminal .navError envLoadEmpty "u" pageEmpty).2.2.2 rfl⟩

/-- C4: the cycle (`scrapeProducts`) errors exactly when the URL list cannot
be read or parsed; with a loaded list it always returns `.ok` no matter how
the per-URL attempts or the database behave, and the driver loop runs every
cycle regardless of cycle errors. -/
theorem cycle_error_iff_load_error (load : Except Part000.LoadErr (List String))
    (env : Part000.Env) (db : Store) :
    ((∃ e, Part000.scrapeProducts load env db = .error e) ↔ (∃ e, load = .error e)) ∧
    (∀ e, load = .error e → Part000.scrapeProducts load env db = .error e) ∧
    (∀ urls, load = .ok urls →
      Part000.scrapeProducts load env db = .ok (urls.foldl (Part000.processUrl env) db)) ∧
    (∀ (inputs : List Part000.CycleInput) (db0 : Store),
      (Part000.driverRun inputs db0).2 = inputs.length) := by
  refine ⟨?_, ?_, ?_, ?_⟩
  · cases load <;> simp [Part000.scrapeProducts]
  · intro e he
    rw [he]
    rfl
  · intro urls hu
    rw [hu]
    rfl
  · intro inputs
    induction inputs with
    | nil => intro db0; rfl
    | cons c rest ih =>
        intro db0
        simp [Part000.driverRun, ih]

/-- Witness for C4: a read failure is the cycle error, and a two-cycle run
(one failing, one working) still executes both cycles. -/
theorem cycle_error_iff_load_error_witness :
    Part000.scrapeProducts (.error .readError) envFailNav store0 = .error .readError ∧
    (Part000.driverRun [⟨.error .readError, envFailNav⟩, ⟨.ok ["u"], envLoadEmpty⟩] store0).2 = 2 :=
  ⟨(cycle_error_iff_load_error (.error .readError) envFailNav store0).2.1 .readError rfl,
   (cycle_error_iff_load_error (.ok []) envFailNav store0).2.2.2
     [⟨.error .readError, envFailNav⟩, ⟨.ok ["u"], envLoadEmpty⟩] store0⟩

/-- C6: the extracted `in_stock` value is `true` exactly when none of the
out-of-stock marker selectors matches an element on the page, and `false`
exactly when at least one of them matches. -/
theorem in_stock_iff_no_oos_marker (page : Page) :
    (evalInStock page = true ↔ ∀ s ∈ oosSelectors, page.querySelector s = none) ∧
    (evalInStock page = false ↔ ∃ s ∈ oosSelectors, (page.querySelector s).isSome) := by
  unfold evalInStock oosSelectors
  cases h1 : page.querySelector "[automation-id=\"outOfStockMessage\"]" <;>
    cases h2 : page.querySelector ".out-of-stock-msg" <;>
      cases h3 : page.querySelector ".oos-overlay" <;>
        simp [h1, h2, h3, Option.or]

/-- Witness for C6: the demo out-of-stock page evaluates to not in stock,
the empty page to in stock. -/
theorem in_stock_iff_no_oos_marker_witness :
    evalInStock pageOos = false ∧ evalInStock pageEmpty = true := by
  constructor
  · exact (in_stock_iff_no_oos_marker pageOos).2.mpr
      ⟨".oos-overlay", by decide, by rw [show pageOos.querySelector ".oos-overlay" =
        some ⟨"Out of Stock", ""⟩ from rfl]; rfl⟩
  · exact (in_stock_iff_no_oos_marker pageEmpty).1.mpr (fun s _ => rfl)

/-- C7 counterexample: a URL whose attempt fails executes only the 2-second
pre-delay for that iteration — the `continue` at `part_000` line 198 skips
the 5-15 second post-delay at line 220, so the post-delay is not applied
"regardless of success or failure". -/
theorem pacing_failure_skips_post_delay_cex :
    Part000.urlSleeps envFailNav "u" = [2] ∧
    ∀ d ∈ Part000.urlSleeps envFailNav "u", ¬ 5 ≤ d := by
  decide

/-- C7 (amended): a randomized pre-delay in `[2,7)` seconds runs before every
attempt; a randomized post-delay in `[5,15)` seconds runs after successful
attempts only — a failed attempt skips the post-delay. -/
theorem pacing_delays (env : Part000.Env) (url : String) :
    2 ≤ Part000.preDelay (env.preSeed url) ∧ Part000.preDelay (env.preSeed url) < 7 ∧
    5 ≤ Part000.postDelay (env.postSeed url) ∧ Part000.postDelay (env.postSeed url) < 15 ∧
    (∀ name inStock imageURL,
      Part000.attempt (env.nav url) = .success name inStock imageURL →
      Part000.urlSleeps env url =
        [Part000.preDelay (env.preSeed url), Part000.postDelay (env.postSeed url)]) ∧
    (∀ r, Part000.attempt (env.nav url) = .failure r →
      Part000.urlSleeps env url = [Part000.preDelay (env.preSeed url)]) := by
  have hpre : env.preSeed url % 5 < 5 := Nat.mod_lt _ (by omega)
  have hpost : env.postSeed url % 10 < 10 := Nat.mod_lt _ (by omega)
  refine ⟨?_, ?_, ?_, ?_, ?_, ?_⟩
  · unfold Part000.preDelay Part000.randIntn
    omega
  · unfold Part000.preDelay Part000.randIntn
    omega
  · unfold Part000.postDelay Part000.randIntn
    omega
  · unfold Part000.postDelay Part000.randIntn
    omega
  · intro name inStock imageURL h
    unfold Part000.urlSleeps
    rw [h]
  · intro r h
    unfold Part000.urlSleeps
    rw [h]

/-- Witness for C7 (amended): a successful attempt sleeps both delays, with
the pre-delay in range. -/
theorem pacing_delays_witness :
    Part000.urlSleeps envLoadEmpty "u" = [Part000.preDelay 3, Part000.postDelay 4] ∧
    2 ≤ Part000.preDelay 3 ∧ Part000.preDelay 3 < 7 :=
  ⟨(pacing_delays envLoadEmpty "u").2.2.2.2.1 "" true "" rfl,
   (pacing_delays envLoadEmpty "u").1,
   (pacing_delays envLoadEmpty "u").2.1⟩

/-- C8: every upsert issued by the scrape loop carries price 0 (the field is
never populated), and after such a write the price of the persisted record is 0
even if a nonzero price was stored for that url before. -/
theorem price_always_zero (env : Part000.Env) (db : Store) (url : String) :
    (∀ p, Part000.upsertArg env url = some p → p.Price = 0) ∧
    (∀ p, Part000.upsertArg env url = some p → env.dbErr url = false →
      ∃ q, findByUrl (Part000.processUrl env db url) url = some q ∧ q.Price = 0) := by
  constructor
  · intro p hp
    exact (upsertArg_url_price env url p hp).2
  · intro p hp hdb
    have hfix : Part000.processUrl env db url = updateProduct db p := by
      unfold Part000.processUrl
      rw [hp]
      simp [hdb]
    obtain ⟨hurl, hprice⟩ := upsertArg_url_price env url p hp
    obtain ⟨q, hq, _, _, _, hqp, _, _⟩ := findByUrl_update db p
    refine ⟨q, ?_, ?_⟩
    · rw [hfix, ← hurl]
      exact hq
    · rw [hqp, hprice]

/-- Witness for C8: scraping `"u"` over a store holding price 99 for `"u"`
leaves a record with price 0. -/
theorem price_always_zero_witness :
    ∃ q, findByUrl (Part000.processUrl envLoadEmpty storeU "u") "u" = some q ∧ q.Price = 0 :=
  (price_always_zero envLoadEmpty storeU "u").2
    { ID := 0, URL := "u", Name := "", InStock := true, Price := 0, ImageURL := "",
      UpdatedAt := 11 } rfl rfl

/-- C9: the diagnostic capture runs exactly after a `Failure` outcome, and
its own success or failure never changes the reported outcome (same
`Failure`, same reason) nor the store. -/
theorem diag_capture_swallowed (env : Part000.Env) (d d2 : String → Bool)
    (db : Store) (url : String) :
    ((Part000.attemptWithDiag env url).2.isSome = true ↔
      ∃ r, Part000.attempt (env.nav url) = .failure r) ∧
    (Part000.attemptWithDiag { env with diagOk := d } url).1 =
      Part000.attempt (env.nav url) ∧
    Part000.processUrl { env with diagOk := d } db url =
      Part000.processUrl { env with diagOk := d2 } db url := by
  refine ⟨?_, ?_, ?_⟩
  · unfold Part000.attemptWithDiag
    cases h : Part000.attempt (env.nav url) <;> simp [h]
  · unfold Part000.attemptWithDiag
    cases h : Part000.attempt (env.nav url) <;> simp [h]
  · unfold Part000.processUrl Part000.upsertArg
    rfl

/-- Witness for C9: on a navigation failure the diagnostic runs and the
outcome stays the same failure whatever the capture result is. -/
theorem diag_capture_swallowed_witness :
    (Part000.attemptWithDiag envFailNav "u").2.isSome = true ∧
    (Part000.attemptWithDiag { envFailNav with diagOk := fun _ => true } "u").1 =
      Part000.attempt (envFailNav.nav "u") :=
  ⟨(diag_capture_swallowed envFailNav (fun _ => true) (fun _ => false) store0 "u").1.mpr
      ⟨.navigation, rfl⟩,
   (diag_capture_swallowed envFailNav (fun _ => true) (fun _ => false) store0 "u").2.1⟩

theorem urlSessions_fst (env : Part000.Env) (next : Nat) (url : String) :
    (Part000.urlSessions env next url).1 = next := by
  unfold Part000.urlSessions
  cases Part000.attempt (env.nav url) <;> rfl

theorem urlSessions_snd (env : Part000.Env) (next : Nat) (url : String) :
    next < (Part000.urlSessions env next url).2 := by
  unfold Part000.urlSessions Part000.newContext
  cases Part000.attempt (env.nav url) <;> simp
  omega

theorem cycleSessions_spec (env : Part000.Env) (urls : List String) :
    ∀ next : Nat,
      next ≤ (Part000.cycleSessions env urls next).2 ∧
      (∀ c ∈ (Part000.cycleSessions env urls next).1,
        next ≤ c ∧ c < (Part000.cycleSessions env urls next).2) ∧
      (Part000.cycleSessions env urls next).1.Nodup := by
  induction urls with
  | nil =>
      intro next
      refine ⟨le_rfl, ?_, List.nodup_nil⟩
      intro c hc
      cases hc
  | cons url rest ih =>
      intro next
      have hstep : Part000.cycleSessions env (url :: rest) next =
          ((Part000.urlSessions env next url).1 ::
            (Part000.cycleSessions env rest (Part000.urlSessions env next url).2).1,
           (Part000.cycleSessions env rest (Part000.urlSessions env next url).2).2) := rfl
      obtain ⟨h1, h2, h3⟩ := ih (Part000.urlSessions env next url).2
      have hlt := urlSessions_snd env next url
      rw [hstep]
      refine ⟨by omega, ?_, ?_⟩
      · intro c hc
        rcases List.mem_cons.mp hc with hc0 | hc1
        · subst hc0
          rw [urlSessions_fst]
          exact ⟨le_rfl, by omega⟩
        · have := h2 c hc1
          exact ⟨by omega, this.2⟩
      · rw [List.nodup_cons]
        refine ⟨?_, h3⟩
        intro hmem
        have := h2 _ hmem
        rw [urlSessions_fst] at this
        omega

theorem runSessions_spec (cycles : List (Part000.Env × List String)) :
    ∀ next : Nat,
      next ≤ (Part000.runSessions cycles next).2 ∧
      (∀ c ∈ (Part000.runSessions cycles next).1,
        next ≤ c ∧ c < (Part000.runSessions cycles next).2) ∧
      (Part000.runSessions cycles next).1.Nodup := by
  induction cycles with
  | nil =>
      intro next
      refine ⟨le_rfl, ?_, List.nodup_nil⟩
      intro c hc
      cases hc
  | cons cyc rest ih =>
      intro next
      have hstep : Part000.runSessions (cyc :: rest) next =
          ((Part000.cycleSessions cyc.1 cyc.2 next).1 ++
            (Part000.runSessions rest (Part000.cycleSessions cyc.1 cyc.2 next).2).1,
           (Part000.runSessions rest (Part000.cycleSessions cyc.1 cyc.2 next).2).2) := rfl
      obtain ⟨g1, g2, g3⟩ := cycleSessions_spec cyc.1 cyc.2 next
      obtain ⟨h1, h2, h3⟩ := ih (Part000.cycleSessions cyc.1 cyc.2 next).2
      rw [hstep]
      refine ⟨by omega, ?_, ?_⟩
      · intro c hc
        rcases List.mem_append.mp hc with hc0 | hc1
        · have := g2 c hc0
          exact ⟨this.1, by omega⟩
        · have := h2 c hc1
          exact ⟨by omega, this.2⟩
      · refine List.Nodup.append g3 h3 ?_
        intro a ha hb
        have hga := g2 a ha
        have hha := h2 a hb
        omega

/-- C5 (amended): in the `part_000` pipeline every attempt runs in a context
allocated freshly for that attempt — across any sequence of cycles and URLs
the context ids of the attempts are pairwise distinct, so no browser context is
ever reused across two URLs or two cycles. -/
theorem fresh_context_per_attempt (cycles : List (Part000.Env × List String)) (next : Nat) :
    (Part000.runSessions cycles next).1.Nodup :=
  (runSessions_spec cycles next).2.2

/-- C5 counterexample: in the `main.go` variant the attempts for two
different URLs (and all cycles) run in the same browser context — the one
created once in `main` — so the claim "no browser context is reused across
two different URLs" is false for that variant. -/
theorem shared_context_cex :
    MainGo.attemptContexts 1 ["a", "b"] = [MainGo.mainContext, MainGo.mainContext] ∧
    ¬ (MainGo.attemptContexts 1 ["a", "b"]).Nodup := by
  decide

theorem firstImageSrc_spec (page : Page) (sels : List String) :
    firstMatchSpec page sels (MainGo.firstImageSrc page sels) := by
  induction sels with
  | nil =>
      right
      refine ⟨?_, rfl⟩
      intro s hs
      cases hs
  | cons sel rest ih =>
      unfold MainGo.firstImageSrc
      cases h : page.querySelector sel with
      | some e =>
          left
          refine ⟨[], sel, rest, rfl, ?_, e, h, rfl⟩
          intro s hs
          cases hs
      | none =>
          rcases ih with ⟨pre, s2, post, heq, hpre, e, he, him⟩ | ⟨hall, him⟩
          · left
            refine ⟨sel :: pre, s2, post, by rw [heq, List.cons_append], ?_, e, he, him⟩
            intro s hs
            rcases List.mem_cons.mp hs with hs0 | hs1
            · subst hs0
              exact h
            · exact hpre s hs1
          · right
            refine ⟨?_, him⟩
            intro s hs
            rcases List.mem_cons.mp hs with hs0 | hs1
            · subst hs0
              exact h
            · exact hall s hs1

/-- C10: for every successful attempt of the `main.go` extractor, the
extracted image URL is the `src` of the first matching element among the
ordered candidate image selectors (the empty string when no candidate
matches), and exactly that value is the `image_url` passed to the upsert and
persisted for the url. -/
theorem image_first_match (env : MainGo.Env) (db : Store) (url : String) (page : Page)
    (hnav : env.nav url = .loaded page) (hhero : env.heroWait url = true) :
    MainGo.attempt env url =
      .success (MainGo.evalName page) (evalInStock page) (MainGo.evalImage page) ∧
    firstMatchSpec page MainGo.imageSelectors (MainGo.evalImage page) ∧
    (env.dbErr url = false →
      ∃ q, findByUrl (MainGo.processUrl env db url) url = some q ∧
        q.ImageURL = MainGo.evalImage page) := by
  have hatt : MainGo.attempt env url =
      .success (MainGo.evalName page) (evalInStock page) (MainGo.evalImage page) := by
    unfold MainGo.attempt
    rw [hnav, hhero]
    simp
  refine ⟨hatt, firstImageSrc_spec page MainGo.imageSelectors, ?_⟩
  intro hdb
  have hfix : MainGo.processUrl env db url = updateProduct db
      { ID := 0, URL := url, Name := MainGo.evalName page, InStock := evalInStock page,
        Price := 0, ImageURL := MainGo.evalImage page, UpdatedAt := env.now url } := by
    unfold MainGo.processUrl
    rw [hatt]
    simp [hdb]
  obtain ⟨q, hq, _, _, _, _, hqi, _⟩ := findByUrl_update db
    { ID := 0, URL := url, Name := MainGo.evalName page, InStock := evalInStock page,
      Price := 0, ImageURL := MainGo.evalImage page, UpdatedAt := env.now url }
  refine ⟨q, ?_, ?_⟩
  · rw [hfix]
    exact hq
  · rw [hqi]

/-- Witness for C10: on the demo page the only matching candidate is
`#zoomImg_wrapper img`, whose src is extracted and persisted. -/
theorem image_first_match_witness :
    MainGo.evalImage pageDemo = "https://img.example/w.png" ∧
    firstMatchSpec pageDemo MainGo.imageSelectors (MainGo.evalImage pageDemo) ∧
    (∃ q, findByUrl (MainGo.processUrl envDemoMain store0 "u") "u" = some q ∧
      q.ImageURL = MainGo.evalImage pageDemo) :=
  ⟨rfl,
   (image_first_match envDemoMain store0 "u" pageDemo rfl rfl).2.1,
   (image_first_match envDemoMain store0 "u" pageDemo rfl rfl).2.2 rfl⟩
